import Mathlib

/-!
# pgpool_adm: the PCP administration functions

A shallow embedding of `pgpool_adm.c`: the three SQL-callable functions
`_pcp_node_info`, `_pcp_pool_status` and `_pcp_node_count`, the resolution of
their connection parameters from the two argument shapes, the validity checks
and the PCP session each one opens.

Conventions of the embedding.

* C `int16` variables are integers wrapped into `-32768 .. 32767` (`int16`).
* A `char *` that may be `NULL` is an `Option String`; `none` is `NULL`.
* `ereport(ERROR, errmsg(m))` ends the call with `Except.error m`.
* The PCP wire client (`libpcp`) is a record of state transformers over an
  arbitrary client state; every call made to it is appended to a call log.
* What PostgreSQL and libpcp provide (catalog lookups, `MAX_NUM_BACKENDS`,
  `RAND_MAX`) is a parameter of the embedding (`Env`).
* A C `double` is the rational it stands for; the datum built from it is its
  IEEE 754 bit pattern.
-/

namespace PgpoolAdm

/-! ## Machine integers and `atoi` -/

/-- Conversion of an integer to the C type `int16` (two's complement wrap). -/
def int16 (x : Int) : Int := (x + 32768) % 65536 - 32768

/-- Conversion of an integer to the C type `int` (32 bits, two's complement wrap). -/
def int32 (x : Int) : Int := (x + 2147483648) % 4294967296 - 2147483648

/-- The macro `PG_GETARG_INT16(n)`, that is `DatumGetInt16(PG_GETARG_DATUM(n))`:
the argument datum cast to `int16`. -/
def PG_GETARG_INT16 (datum : Int) : Int := int16 datum

/-- The C library `isspace` in the "C" locale. -/
def isspace (c : Char) : Bool :=
  c.toNat = 32 || (9 ≤ c.toNat && c.toNat ≤ 13)

/-- The C library `isdigit`. -/
def isdigit (c : Char) : Bool := 48 ≤ c.toNat && c.toNat ≤ 57

/-- Accumulation of the leading decimal digits of a character sequence, stopping
at the first character that is not a digit. -/
def digitsValue : Nat → List Char → Nat
  | acc, [] => acc
  | acc, c :: cs => if isdigit c then digitsValue (acc * 10 + (c.toNat - 48)) cs else acc

/-- The sign and digits part of `strtol(s, NULL, 10)`, after the leading white
space: an optional `+` or `-`, then decimal digits. -/
def signedValue : List Char → Int
  | [] => 0
  | c :: cs =>
    if c.toNat = 45 then -(digitsValue 0 cs : Int)
    else if c.toNat = 43 then (digitsValue 0 cs : Int)
    else (digitsValue 0 (c :: cs) : Int)

/-- Removal of the leading white space of a character sequence. -/
def skipSpaces : List Char → List Char
  | [] => []
  | c :: cs => if isspace c then skipSpaces cs else c :: cs

/-- The C library `strtol(s, NULL, 10)` on a 64-bit `long`: the value saturates at
`LONG_MIN` and `LONG_MAX`. -/
def strtol (s : String) : Int :=
  max (-9223372036854775808) (min 9223372036854775807 (signedValue (skipSpaces s.toList)))

/-- The C library `atoi`, which is `(int) strtol(s, NULL, 10)`. -/
def atoi (s : String) : Int := int32 (strtol s)

/-- Equality of outcomes is decidable. -/
instance instDecidableEqExcept {ε α : Type} [DecidableEq ε] [DecidableEq α] :
    DecidableEq (Except ε α)
  | .ok a, .ok b => if h : a = b then isTrue (by rw [h]) else isFalse (by intro h1; cases h1; exact h rfl)
  | .error a, .error b =>
    if h : a = b then isTrue (by rw [h]) else isFalse (by intro h1; cases h1; exact h rfl)
  | .ok _, .error _ => isFalse (by intro h; cases h)
  | .error _, .ok _ => isFalse (by intro h; cases h)

/-! ## The host: catalog, constants -/

/-- A `DefElem` of an option list: `defname` and the string value `strVal(arg)`. -/
structure DefElem where
  defname : String
  arg : String
  deriving DecidableEq, Repr

/-- A foreign server as returned by `GetForeignServerByName`. -/
structure ForeignServer where
  serverid : Nat
  options : List DefElem
  deriving DecidableEq, Repr

/-- A user mapping as returned by `GetUserMapping`. -/
structure UserMapping where
  options : List DefElem
  deriving DecidableEq, Repr

/-- What the functions take from PostgreSQL and libpcp. `GetForeignServerByName`
is called with `missing_ok = false` and, like `GetUserMapping`, raises an error of
its own when nothing is found. `MAX_NUM_BACKENDS` comes from `libpcp_ext.h` and
`RAND_MAX` from the C library. -/
structure Env where
  GetUserId : Nat
  GetForeignServerByName : String → Except String ForeignServer
  GetUserMapping : Nat → Nat → Except String UserMapping
  MAX_NUM_BACKENDS : Int
  RAND_MAX : Int

/-! ## Argument shapes and parameter resolution -/

/-- The arguments of a call after the leading `nodeID` of `_pcp_node_info`, by
`PG_NARGS()`: one text argument (a foreign server name), or host, timeout, port,
user and password, or any other number of arguments. Integer arguments are the
raw datums. -/
inductive Args where
  | named (host_or_srv : String)
  | explicit (host_or_srv : String) (timeout port : Int) (user pass : String)
  | wrong (host_or_srv : String)
  deriving DecidableEq, Repr

/-- The local variables `host_or_srv`, `timeout`, `port`, `user`, `pass`. -/
structure Params where
  host_or_srv : String
  timeout : Int
  port : Int
  user : Option String
  pass : Option String
  deriving DecidableEq, Repr

/-- The body of the loop over `foreign_server->options`. -/
def serverOption (v : Params) (d : DefElem) : Params :=
  if d.defname = "host" then
    ⟨d.arg, v.timeout, v.port, v.user, v.pass⟩
  else if d.defname = "port" then
    ⟨v.host_or_srv, v.timeout, int16 (atoi d.arg), v.user, v.pass⟩
  else if d.defname = "timeout" then
    ⟨v.host_or_srv, int16 (atoi d.arg), v.port, v.user, v.pass⟩
  else v

/-- The body of the loop over `user_mapping->options`. -/
def mappingOption (v : Params) (d : DefElem) : Params :=
  if d.defname = "user" then
    ⟨v.host_or_srv, v.timeout, v.port, some d.arg, v.pass⟩
  else if d.defname = "password" then
    ⟨v.host_or_srv, v.timeout, v.port, v.user, some d.arg⟩
  else v

/-- The block that fills the local variables from the arguments. It is the same
text in the three functions (lines 63-116, 233-287 and 419-473): the variables
start as `timeout = -1`, `port = -1`, `user = NULL`, `pass = NULL`. -/
def resolve (env : Env) : Args → Except String Params
  | .explicit host_or_srv timeout port user pass =>
    .ok ⟨host_or_srv, PG_GETARG_INT16 timeout, PG_GETARG_INT16 port, some user, some pass⟩
  | .named host_or_srv =>
    match env.GetForeignServerByName host_or_srv with
    | .error e => .error e
    | .ok foreign_server =>
      match env.GetUserMapping env.GetUserId foreign_server.serverid with
      | .error e => .error e
      | .ok user_mapping =>
        .ok (user_mapping.options.foldl mappingOption
              (foreign_server.options.foldl serverOption ⟨host_or_srv, -1, -1, none, none⟩))
  | .wrong _ => .error "Wrong number of argument."

/-! ## The PCP wire client -/

/-- The enumeration `BACKEND_STATUS` of `libpcp_ext.h`. A C enumeration is an
integer type, and libpcp fills the field from the wire, so a value that is none
of the four enumerators can arrive: `unlisted code`. -/
inductive BACKEND_STATUS where
  | CON_UNUSED
  | CON_CONNECT_WAIT
  | CON_UP
  | CON_DOWN
  | unlisted (code : Int)
  deriving DecidableEq, Repr

/-- The fields of `BackendInfo` the function reads. `backend_weight` is a C
`double`, given by the rational it stands for. -/
structure BackendInfo where
  backend_hostname : String
  backend_port : Int
  backend_status : BACKEND_STATUS
  backend_weight : ℚ
  deriving DecidableEq

/-- One element of the array returned by `pcp_pool_status`. -/
structure POOL_REPORT_CONFIG where
  name : String
  value : String
  desc : String
  deriving DecidableEq, Repr

/-- The libpcp wire client, over a client state `σ` (the connection kept in
libpcp globals). `pcp_connect` returns 0 on success. `pcp_node_info` returns
`none` for `NULL`. `pcp_pool_status` returns `none` for `NULL`, else the array
and the count written through its `int *` argument. `pcp_node_count` returns a C
`int`. -/
structure PcpClient (σ : Type) where
  pcp_set_timeout : Int → σ → σ
  pcp_connect : String → Int → String → String → σ → Int × σ
  pcp_node_info : Int → σ → Option BackendInfo × σ
  pcp_pool_status : σ → Option (List POOL_REPORT_CONFIG × Int) × σ
  pcp_node_count : σ → Int × σ
  pcp_disconnect : σ → σ

/-- A call made to the wire client, as kept in the call log; `connect` records
the value `pcp_connect` returned. -/
inductive PcpCall where
  | set_timeout (sec : Int)
  | connect (host : String) (port : Int) (user pass : String) (rc : Int)
  | node_info (nodeID : Int)
  | pool_status
  | node_count
  | disconnect
  deriving DecidableEq, Repr

/-! ## `_pcp_node_info` -/

/-- The macro `Int16GetDatum(X)` applied to a C `int`. In the PostgreSQL headers
the file compiles against (those with the two-argument `CreateTemplateTupleDesc`)
it is `(Datum) SET_2_BYTES(X)`, the low 16 bits of the value, or in the last of
them the plain cast `(Datum) (X)`; on 0..65535 the two agree. -/
def Int16GetDatum (x : Int) : Int := x % 65536

/-- The four bytes `store_att_byval` keeps of a datum for a by-value attribute of
length 4 (`INT4OID`, `FLOAT4OID`): `DatumGetInt32`, the low 32 bits as an
`int32`. -/
def DatumGetInt32 (datum : Int) : Int := int32 datum

/-- Numerator and denominator of `n / d` divided by `2 ^ k`. -/
def scaleBy (n d : Nat) (k : Int) : Nat × Nat :=
  if 0 ≤ k then (n, d * 2 ^ k.toNat) else (n * 2 ^ (-k).toNat, d)

/-- Rounding of `a / b` to the nearest integer, ties to the even one. -/
def roundHalfEven (a b : Nat) : Nat :=
  if 2 * (a % b) > b ∨ (2 * (a % b) = b ∧ a / b % 2 = 1) then a / b + 1 else a / b

/-- The number of halvings that bring `n` below 2, at most `fuel` of them: with
`fuel = n`, the integer part of the binary logarithm of `n`. -/
def ilog2 : Nat → Nat → Nat
  | 0, _ => 0
  | fuel + 1, n => if n ≥ 2 then ilog2 fuel (n / 2) + 1 else 0

/-- The exponent `e` with `2 ^ e ≤ n / d < 2 ^ (e + 1)`, for positive `n` and `d`. -/
def binade (n d : Nat) : Int :=
  let e0 : Int := (ilog2 n n : Int) - (ilog2 d d : Int)
  if (scaleBy n d e0).2 ≤ (scaleBy n d e0).1 then e0 else e0 - 1

/-- The 64 bits of the C `double` nearest to `n / d` (IEEE 754 binary64, round to
nearest, ties to even), with the given sign, for positive `n` and `d`: the sign
bit, 11 bits of biased exponent, 52 bits of fraction. Values below the normal
range are rounded to a multiple of `2 ^ -1074`, values past the largest double
become infinity. -/
def float8_of_ratio (negative : Bool) (n d : Nat) : Nat :=
  let sign := if negative then 2 ^ 63 else 0
  let e := binade n d
  if e < -1022 then
    sign + roundHalfEven (scaleBy n d (-1074)).1 (scaleBy n d (-1074)).2
  else
    let m := roundHalfEven (scaleBy n d (e - 52)).1 (scaleBy n d (e - 52)).2
    let bits := (e + 1023).toNat * 2 ^ 52 + (m - 2 ^ 52)
    if bits ≥ 2047 * 2 ^ 52 then sign + 2047 * 2 ^ 52 else sign + bits

/-- The 64 bits of the C `double` that a computation with the exact result `x`
yields. -/
def float8_bits (x : ℚ) : Nat :=
  if x = 0 then 0 else float8_of_ratio (decide (x < 0)) x.num.natAbs x.den

/-- The function `Float8GetDatum` of PostgreSQL where `float8` is passed by value
(the default on 64-bit platforms): the datum is the 64 bits of the double. -/
def Float8GetDatum (x : ℚ) : Int := float8_bits x

/-- A value of the SQL type `float4`. -/
inductive Float4 where
  | finite (v : ℚ)
  | infinite (negative : Bool)
  | nan
  deriving DecidableEq

/-- The macro `DatumGetFloat4`: the low 32 bits of a datum read as an IEEE 754
binary32 number (sign bit, 8 bits of biased exponent, 23 bits of fraction). It
is how a `FLOAT4OID` column is read back. -/
def DatumGetFloat4 (datum : Int) : Float4 :=
  let b : Nat := (datum % 4294967296).toNat
  let sign : ℚ := if b / 2 ^ 31 = 1 then -1 else 1
  let ex : Nat := b / 2 ^ 23 % 256
  let frac : Nat := b % 2 ^ 23
  if ex = 255 then (if frac = 0 then .infinite (decide (b / 2 ^ 31 = 1)) else .nan)
  else if ex = 0 then .finite (sign * (frac : ℚ) / 2 ^ 149)
  else .finite (sign * (2 ^ 23 + (frac : ℚ)) * 2 ^ ((ex : Int) - 150))

/-- The row formed by `heap_form_tuple` from the array `values`, for the columns
`hostname` (`TEXTOID`), `port` (`INT4OID`), `status` (`TEXTOID`) and `weight`
(`FLOAT4OID`). `status` is `none` when `values[2]` was never assigned. `port`
and `weight` are the four bytes the tuple keeps of their datums, as an `int32`;
the column `weight` is read back with `DatumGetFloat4`. -/
structure NodeInfoRow where
  hostname : String
  port : Int
  status : Option String
  weight : Int
  deriving DecidableEq

/-- The `switch (backend_info->backend_status)`: the value assigned to
`values[2]`, if any. The switch has no `default` label. -/
def statusLabel : BACKEND_STATUS → Option String
  | .CON_UNUSED => some "Connection unused"
  | .CON_CONNECT_WAIT => some "Waiting for connection to start"
  | .CON_UP => some "Connection in use"
  | .CON_DOWN => some "Disconnected"
  | .unlisted _ => none

/-- The function `_pcp_node_info` (lines 46-196). `nodeID` is the raw first
argument datum. Returns the outcome, the calls made to the wire client and the
final client state. `values[3]` is built with `Float8GetDatum` (line 184) for
the column declared `FLOAT4OID` (line 144). -/
def _pcp_node_info {σ : Type} (env : Env) (w : PcpClient σ) (nodeID : Int) (a : Args) (s : σ) :
    Except String NodeInfoRow × List PcpCall × σ :=
  let nodeID := PG_GETARG_INT16 nodeID
  match resolve env a with
  | .error e => (.error e, [], s)
  | .ok v =>
    if nodeID < 0 ∨ nodeID ≥ env.MAX_NUM_BACKENDS then
      (.error "NodeID is out of range.", [], s)
    else if v.timeout < 0 then
      (.error "Timeout is out of range.", [], s)
    else if v.port < 0 ∨ v.port > 65535 then
      (.error "PCP port out of range.", [], s)
    else
      match v.user with
      | none => (.error "No user given.", [], s)
      | some user =>
        match v.pass with
        | none => (.error "No password given.", [], s)
        | some pass =>
          let s1 := w.pcp_set_timeout v.timeout s
          let c := w.pcp_connect v.host_or_srv v.port user pass s1
          if c.1 ≠ 0 then
            (.error "Cannot connect to PCP server.",
              [.set_timeout v.timeout, .connect v.host_or_srv v.port user pass c.1], c.2)
          else
            let r := w.pcp_node_info nodeID c.2
            match r.1 with
            | none =>
              (.error "Cannot get node information.",
                [.set_timeout v.timeout, .connect v.host_or_srv v.port user pass c.1,
                  .node_info nodeID, .disconnect], w.pcp_disconnect r.2)
            | some backend_info =>
              (.ok ⟨backend_info.backend_hostname,
                    DatumGetInt32 (Int16GetDatum backend_info.backend_port),
                    statusLabel backend_info.backend_status,
                    DatumGetInt32
                      (Float8GetDatum (backend_info.backend_weight / (env.RAND_MAX : ℚ)))⟩,
                [.set_timeout v.timeout, .connect v.host_or_srv v.port user pass c.1,
                  .node_info nodeID, .disconnect], w.pcp_disconnect r.2)

/-! ## `_pcp_node_count` -/

/-- The function `_pcp_node_count` (lines 408-509). The reply of
`pcp_node_count` is assigned to the `int16` variable `node_count` before it is
compared with -1. -/
def _pcp_node_count {σ : Type} (env : Env) (w : PcpClient σ) (a : Args) (s : σ) :
    Except String Int × List PcpCall × σ :=
  match resolve env a with
  | .error e => (.error e, [], s)
  | .ok v =>
    if v.timeout < 0 then
      (.error "Timeout is out of range.", [], s)
    else if v.port < 0 ∨ v.port > 65535 then
      (.error "PCP port out of range.", [], s)
    else
      match v.user with
      | none => (.error "No user given.", [], s)
      | some user =>
        match v.pass with
        | none => (.error "No password given.", [], s)
        | some pass =>
          let s1 := w.pcp_set_timeout v.timeout s
          let c := w.pcp_connect v.host_or_srv v.port user pass s1
          if c.1 ≠ 0 then
            (.error "Cannot connect to PCP server.",
              [.set_timeout v.timeout, .connect v.host_or_srv v.port user pass c.1], c.2)
          else
            let r := w.pcp_node_count c.2
            let node_count := int16 r.1
            if node_count = -1 then
              (.error "Cannot get node count.",
                [.set_timeout v.timeout, .connect v.host_or_srv v.port user pass c.1,
                  .node_count, .disconnect], w.pcp_disconnect r.2)
            else
              (.ok node_count,
                [.set_timeout v.timeout, .connect v.host_or_srv v.port user pass c.1,
                  .node_count, .disconnect], w.pcp_disconnect r.2)

/-! ## `_pcp_pool_status` -/

/-- The fields of the cross-call `FuncCallContext` the function uses; `user_fctx`
is the array `status`. -/
structure FuncCallContext where
  call_cntr : Nat
  max_calls : Int
  user_fctx : List POOL_REPORT_CONFIG
  deriving DecidableEq, Repr

/-- A row of the columns `item`, `value`, `description`. -/
structure ConfigRow where
  item : String
  value : String
  description : String
  deriving DecidableEq, Repr

/-- How one call of a set-returning function ends: `SRF_RETURN_NEXT` with a row,
`SRF_RETURN_DONE`, an `ereport(ERROR)`, or a read of `status[call_cntr]` outside
the array (undefined in C). -/
inductive SRFResult where
  | next (row : ConfigRow)
  | done
  | error (msg : String)
  | undefined
  deriving DecidableEq, Repr

/-- The block under `SRF_IS_FIRSTCALL()` (lines 218-361): `.ok none` is the fast
track `SRF_RETURN_DONE` when there are no results, `.ok (some ctx)` the context
set up for the calls (`SRF_FIRSTCALL_INIT` starts `call_cntr` at 0). -/
def pool_status_firstcall {σ : Type} (env : Env) (w : PcpClient σ) (a : Args) (s : σ) :
    Except String (Option FuncCallContext) × List PcpCall × σ :=
  match resolve env a with
  | .error e => (.error e, [], s)
  | .ok v =>
    if v.timeout < 0 then
      (.error "Timeout is out of range.", [], s)
    else if v.port < 0 ∨ v.port > 65535 then
      (.error "PCP port out of range.", [], s)
    else
      match v.user with
      | none => (.error "No user given.", [], s)
      | some user =>
        match v.pass with
        | none => (.error "No password given.", [], s)
        | some pass =>
          let s1 := w.pcp_set_timeout v.timeout s
          let c := w.pcp_connect v.host_or_srv v.port user pass s1
          if c.1 ≠ 0 then
            (.error "Cannot connect to PCP server.",
              [.set_timeout v.timeout, .connect v.host_or_srv v.port user pass c.1], c.2)
          else
            let r := w.pcp_pool_status c.2
            match r.1 with
            | none =>
              (.error "Cannot pool status information.",
                [.set_timeout v.timeout, .connect v.host_or_srv v.port user pass c.1,
                  .pool_status, .disconnect], w.pcp_disconnect r.2)
            | some (status, nrows) =>
              (.ok (if nrows > 0 then some ⟨0, nrows, status⟩ else none),
                [.set_timeout v.timeout, .connect v.host_or_srv v.port user pass c.1,
                  .pool_status, .disconnect], w.pcp_disconnect r.2)

/-- The part done on every call (lines 363-395): the new value of `fn_extra`
(`SRF_RETURN_NEXT` increments `call_cntr`, `SRF_RETURN_DONE` releases the
context) and how the call ends. -/
def pool_status_percall (funcctx : FuncCallContext) : SRFResult × Option FuncCallContext :=
  if (funcctx.call_cntr : Int) < funcctx.max_calls then
    match funcctx.user_fctx[funcctx.call_cntr]? with
    | some c =>
      (.next ⟨c.name, c.value, c.desc⟩,
        some ⟨funcctx.call_cntr + 1, funcctx.max_calls, funcctx.user_fctx⟩)
    | none => (.undefined, none)
  else (.done, none)

/-- The function `_pcp_pool_status` (lines 205-398), one call of it. `fn_extra`
is the cross-call context, `none` on the first call (`SRF_IS_FIRSTCALL()`). -/
def _pcp_pool_status {σ : Type} (env : Env) (w : PcpClient σ) (a : Args)
    (fn_extra : Option FuncCallContext) (s : σ) :
    SRFResult × Option FuncCallContext × List PcpCall × σ :=
  match fn_extra with
  | none =>
    match pool_status_firstcall env w a s with
    | (.error e, log, s1) => (.error e, none, log, s1)
    | (.ok none, log, s1) => (.done, none, log, s1)
    | (.ok (some funcctx), log, s1) =>
      ((pool_status_percall funcctx).1, (pool_status_percall funcctx).2, log, s1)
  | some funcctx => ((pool_status_percall funcctx).1, (pool_status_percall funcctx).2, [], s)

/-- How the drain of a set-returning function ends: all rows delivered, an error
after some rows, an undefined read, or the allowed number of calls used up. -/
inductive Drained where
  | done (rows : List ConfigRow)
  | error (rows : List ConfigRow) (msg : String)
  | undefined (rows : List ConfigRow)
  | more (rows : List ConfigRow)
  deriving DecidableEq, Repr

/-- Adds a row delivered earlier in front of the rest of a drain. -/
def Drained.cons (row : ConfigRow) : Drained → Drained
  | .done rows => .done (row :: rows)
  | .error rows msg => .error (row :: rows) msg
  | .undefined rows => .undefined (row :: rows)
  | .more rows => .more (row :: rows)

/-- The executor draining `_pcp_pool_status`, as the set-returning function
protocol of PostgreSQL prescribes: the function is called again with the same
`fn_extra` until it returns done or raises. `calls` bounds the number of calls
made. -/
def drain {σ : Type} (env : Env) (w : PcpClient σ) (a : Args) :
    Nat → Option FuncCallContext → σ → Drained × List PcpCall × σ
  | 0, _, s => (.more [], [], s)
  | calls + 1, fn_extra, s =>
    match _pcp_pool_status env w a fn_extra s with
    | (.next row, fn_extra1, log, s1) =>
      ((drain env w a calls fn_extra1 s1).1.cons row,
        log ++ (drain env w a calls fn_extra1 s1).2.1, (drain env w a calls fn_extra1 s1).2.2)
    | (.done, _, log, s1) => (.done [], log, s1)
    | (.error msg, _, log, s1) => (.error [] msg, log, s1)
    | (.undefined, _, log, s1) => (.undefined [], log, s1)

/-! ## Concrete hosts and clients used in the examples -/

/-- A host with one foreign server `pool1` and a mapping for the caller. -/
def env1 (serverOptions userOptions : List DefElem) : Env :=
  ⟨10, fun n => if n = "pool1" then .ok ⟨1, serverOptions⟩ else .error "server does not exist",
    fun _ _ => .ok ⟨userOptions⟩, 128, 2147483647⟩

/-- A wire client without state: `pcp_connect` returns `rc`, the three requests
return the given replies. -/
def client1 (rc : Int) (info : Option BackendInfo)
    (status : Option (List POOL_REPORT_CONFIG × Int)) (count : Int) : PcpClient Unit :=
  ⟨fun _ s => s, fun _ _ _ _ s => (rc, s), fun _ s => (info, s), fun s => (status, s),
    fun s => (count, s), fun s => s⟩

/-! ## Properties used in the statements -/

/-- The three functions, called with the same arguments, all raise the error
`msg` without any call to the wire client (`_pcp_pool_status` on its first
call). -/
def FailsWith {σ : Type} (env : Env) (w : PcpClient σ) (nodeID : Int) (a : Args) (s : σ)
    (msg : String) : Prop :=
  _pcp_node_info env w nodeID a s = (.error msg, [], s) ∧
  _pcp_pool_status env w a none s = (.error msg, none, [], s) ∧
  _pcp_node_count env w a s = (.error msg, [], s)

/-- The three functions, called with the same arguments, all begin their session
with the two calls `opening` (`pcp_set_timeout`, then `pcp_connect`). -/
def OpensWith {σ : Type} (env : Env) (w : PcpClient σ) (nodeID : Int) (a : Args) (s : σ)
    (opening : List PcpCall) : Prop :=
  (_pcp_node_info env w nodeID a s).2.1.take 2 = opening ∧
  (_pcp_pool_status env w a none s).2.2.1.take 2 = opening ∧
  (_pcp_node_count env w a s).2.1.take 2 = opening

/-- The `nodeID` argument passes the check of `_pcp_node_info`. -/
def NodeIdInRange (env : Env) (nodeID : Int) : Prop :=
  0 ≤ PG_GETARG_INT16 nodeID ∧ PG_GETARG_INT16 nodeID < env.MAX_NUM_BACKENDS

/-- The arguments resolve to valid parameters and `pcp_connect`, called after
`pcp_set_timeout` from the client state `s`, returns 0 and leaves the client in
the state `s2`. -/
def Connects {σ : Type} (env : Env) (w : PcpClient σ) (a : Args) (s s2 : σ) : Prop :=
  ∃ v user pass, resolve env a = .ok v ∧ 0 ≤ v.timeout ∧ 0 ≤ v.port ∧ v.port ≤ 65535 ∧
    v.user = some user ∧ v.pass = some pass ∧
    w.pcp_connect v.host_or_srv v.port user pass (w.pcp_set_timeout v.timeout s) = (0, s2)

/-- Every character of the list is a decimal digit. -/
def AllDigits (l : List Char) : Prop := ∀ c ∈ l, isdigit c = true

/-- The row built from an item of the reply. -/
def rowOf (c : POOL_REPORT_CONFIG) : ConfigRow := ⟨c.name, c.value, c.desc⟩

/-! ## Validation -/

theorem pool_status_first_log {σ : Type} (env : Env) (w : PcpClient σ) (a : Args) (s : σ) :
    (_pcp_pool_status env w a none s).2.2 = (pool_status_firstcall env w a s).2 := by
  unfold _pcp_pool_status
  rcases pool_status_firstcall env w a s with ⟨r, log, s1⟩
  cases r with
  | error e => rfl
  | ok o => cases o <;> rfl

theorem failsWith_timeout {σ : Type} (env : Env) (w : PcpClient σ) (nodeID : Int) (a : Args)
    (s : σ) (v : Params) (hres : resolve env a = .ok v) (hnode : NodeIdInRange env nodeID)
    (ht : v.timeout < 0) : FailsWith env w nodeID a s "Timeout is out of range." := by
  obtain ⟨h0, h1⟩ := hnode
  refine ⟨?_, ?_, ?_⟩
  · simp [_pcp_node_info, hres, ht, not_lt.mpr h0, h1]
  · simp [_pcp_pool_status, pool_status_firstcall, hres, ht]
  · simp [_pcp_node_count, hres, ht]

theorem failsWith_port {σ : Type} (env : Env) (w : PcpClient σ) (nodeID : Int) (a : Args)
    (s : σ) (v : Params) (hres : resolve env a = .ok v) (hnode : NodeIdInRange env nodeID)
    (ht : 0 ≤ v.timeout) (hp : v.port < 0 ∨ 65535 < v.port) :
    FailsWith env w nodeID a s "PCP port out of range." := by
  obtain ⟨h0, h1⟩ := hnode
  refine ⟨?_, ?_, ?_⟩
  · simp [_pcp_node_info, hres, not_lt.mpr ht, not_lt.mpr h0, h1, hp]
  · simp [_pcp_pool_status, pool_status_firstcall, hres, not_lt.mpr ht, hp]
  · simp [_pcp_node_count, hres, not_lt.mpr ht, hp]

theorem failsWith_user {σ : Type} (env : Env) (w : PcpClient σ) (nodeID : Int) (a : Args)
    (s : σ) (v : Params) (hres : resolve env a = .ok v) (hnode : NodeIdInRange env nodeID)
    (ht : 0 ≤ v.timeout) (hp : 0 ≤ v.port ∧ v.port ≤ 65535) (hu : v.user = none) :
    FailsWith env w nodeID a s "No user given." := by
  obtain ⟨h0, h1⟩ := hnode
  have hp1 : ¬ (v.port < 0 ∨ 65535 < v.port) := by omega
  refine ⟨?_, ?_, ?_⟩
  · simp [_pcp_node_info, hres, not_lt.mpr ht, not_lt.mpr h0, h1, hp1, hu]
  · simp [_pcp_pool_status, pool_status_firstcall, hres, not_lt.mpr ht, hp1, hu]
  · simp [_pcp_node_count, hres, not_lt.mpr ht, hp1, hu]

theorem failsWith_pass {σ : Type} (env : Env) (w : PcpClient σ) (nodeID : Int) (a : Args)
    (s : σ) (v : Params) (hres : resolve env a = .ok v) (hnode : NodeIdInRange env nodeID)
    (ht : 0 ≤ v.timeout) (hp : 0 ≤ v.port ∧ v.port ≤ 65535) (hu : v.user ≠ none)
    (hpw : v.pass = none) : FailsWith env w nodeID a s "No password given." := by
  obtain ⟨h0, h1⟩ := hnode
  have hp1 : ¬ (v.port < 0 ∨ 65535 < v.port) := by omega
  obtain ⟨user, hu1⟩ := Option.ne_none_iff_exists'.mp hu
  refine ⟨?_, ?_, ?_⟩
  · simp [_pcp_node_info, hres, not_lt.mpr ht, not_lt.mpr h0, h1, hp1, hu1, hpw]
  · simp [_pcp_pool_status, pool_status_firstcall, hres, not_lt.mpr ht, hp1, hu1, hpw]
  · simp [_pcp_node_count, hres, not_lt.mpr ht, hp1, hu1, hpw]

theorem opensWith_valid {σ : Type} (env : Env) (w : PcpClient σ) (nodeID : Int) (a : Args)
    (s : σ) (v : Params) (user pass : String) (hres : resolve env a = .ok v)
    (hnode : NodeIdInRange env nodeID) (ht : 0 ≤ v.timeout)
    (hp : 0 ≤ v.port ∧ v.port ≤ 65535) (hu : v.user = some user) (hpw : v.pass = some pass) :
    OpensWith env w nodeID a s
      [.set_timeout v.timeout,
        .connect v.host_or_srv v.port user pass
          (w.pcp_connect v.host_or_srv v.port user pass (w.pcp_set_timeout v.timeout s)).1] := by
  obtain ⟨h0, h1⟩ := hnode
  have hp1 : ¬ (v.port < 0 ∨ 65535 < v.port) := by omega
  refine ⟨?_, ?_, ?_⟩
  · simp only [_pcp_node_info, hres, not_lt.mpr ht, not_lt.mpr h0, h1, hp1, hu, hpw]
    simp only [ge_iff_le, not_le.mpr h1, or_self, if_false]
    split
    · rfl
    · split <;> rfl
  · rw [pool_status_first_log]
    simp only [pool_status_firstcall, hres, not_lt.mpr ht, hp1, hu, hpw]
    simp only [gt_iff_lt, if_false]
    split
    · rfl
    · split <;> rfl
  · simp only [_pcp_node_count, hres, not_lt.mpr ht, hp1, hu, hpw]
    simp only [gt_iff_lt, if_false]
    split
    · rfl
    · split <;> rfl

/-- `_pcp_node_info` checks `nodeID` before the other parameters: once the
arguments are resolved, a `nodeID` out of range is the error reported, whatever
the timeout, port, user and password. -/
theorem node_id_checked_first {σ : Type} (env : Env) (w : PcpClient σ) (nodeID : Int)
    (a : Args) (s : σ) (v : Params) (hres : resolve env a = .ok v)
    (hnode : ¬ NodeIdInRange env nodeID) :
    _pcp_node_info env w nodeID a s = (.error "NodeID is out of range.", [], s) := by
  have h : PG_GETARG_INT16 nodeID < 0 ∨ PG_GETARG_INT16 nodeID ≥ env.MAX_NUM_BACKENDS := by
    unfold NodeIdInRange at hnode
    omega
  simp only [_pcp_node_info, hres, h, if_true]

/-! ## Claims on validation -/

/-- C1. In each of the three functions and in both argument shapes, when the
value of the `int16` variable `port` after resolution is outside 0..65535 (the
`int16` argument in the explicit shape, `atoi` of the `port` option stored in the
`int16` variable in the named shape) and the other parameters are valid, the
call raises "PCP port out of range." and no call is made to the wire client, so
`pcp_connect` is never called. -/
theorem port_out_of_range_rejected {σ : Type} (env : Env) (w : PcpClient σ) (nodeID : Int)
    (a : Args) (s : σ) (v : Params) (hres : resolve env a = .ok v)
    (hnode : NodeIdInRange env nodeID) (htimeout : 0 ≤ v.timeout)
    (hport : v.port < 0 ∨ 65535 < v.port) :
    FailsWith env w nodeID a s "PCP port out of range." :=
  failsWith_port env w nodeID a s v hres hnode htimeout hport

/-- C1 at a named endpoint whose `port` option is written `-5`. -/
theorem port_out_of_range_rejected_witness :
    resolve (env1 [⟨"host", "h"⟩, ⟨"port", "-5"⟩, ⟨"timeout", "10"⟩]
        [⟨"user", "u"⟩, ⟨"password", "p"⟩]) (.named "pool1")
      = .ok ⟨"h", 10, -5, some "u", some "p"⟩ ∧
    FailsWith (env1 [⟨"host", "h"⟩, ⟨"port", "-5"⟩, ⟨"timeout", "10"⟩]
        [⟨"user", "u"⟩, ⟨"password", "p"⟩]) (client1 0 none none 3) 0 (.named "pool1") ()
      "PCP port out of range." :=
  ⟨by decide,
    port_out_of_range_rejected _ (client1 0 none none 3) 0 (.named "pool1") ()
      ⟨"h", 10, -5, some "u", some "p"⟩ (by decide) ⟨by decide, by decide⟩ (by decide)
      (by decide)⟩

/-- The check is made on the `int16` variable: a `port` option written `70000` is
stored as 4464 and passes, and one written `40000` is stored as -25536 and is
refused. -/
theorem named_port_is_narrowed :
    (_pcp_node_count (env1 [⟨"host", "h"⟩, ⟨"port", "70000"⟩, ⟨"timeout", "10"⟩]
        [⟨"user", "u"⟩, ⟨"password", "p"⟩]) (client1 0 none none 3) (.named "pool1") ())
      = (.ok 3, [.set_timeout 10, .connect "h" 4464 "u" "p" 0, .node_count, .disconnect], ()) ∧
    (_pcp_node_count (env1 [⟨"host", "h"⟩, ⟨"port", "40000"⟩, ⟨"timeout", "10"⟩]
        [⟨"user", "u"⟩, ⟨"password", "p"⟩]) (client1 0 none none 3) (.named "pool1") ())
      = (.error "PCP port out of range.", [], ()) := by
  decide

/-- C2. In each of the three functions and in both argument shapes, when the
value of the `int16` variable `timeout` after resolution is negative (in the
named shape `atoi` of the `timeout` option, or the initial -1 when the option is
absent) and the other parameters are valid, the call raises "Timeout is out of
range." and no call is made to the wire client: neither `pcp_set_timeout` nor
`pcp_connect`. -/
theorem negative_timeout_rejected {σ : Type} (env : Env) (w : PcpClient σ) (nodeID : Int)
    (a : Args) (s : σ) (v : Params) (hres : resolve env a = .ok v)
    (hnode : NodeIdInRange env nodeID) (htimeout : v.timeout < 0) :
    FailsWith env w nodeID a s "Timeout is out of range." :=
  failsWith_timeout env w nodeID a s v hres hnode htimeout

/-- C2 at a named endpoint that has no `timeout` option: the variable keeps its
initial value -1. -/
theorem negative_timeout_rejected_witness :
    resolve (env1 [⟨"host", "h"⟩, ⟨"port", "9898"⟩] [⟨"user", "u"⟩, ⟨"password", "p"⟩])
        (.named "pool1")
      = .ok ⟨"h", -1, 9898, some "u", some "p"⟩ ∧
    FailsWith (env1 [⟨"host", "h"⟩, ⟨"port", "9898"⟩] [⟨"user", "u"⟩, ⟨"password", "p"⟩])
      (client1 0 none none 3) 0 (.named "pool1") () "Timeout is out of range." :=
  ⟨by decide,
    negative_timeout_rejected _ (client1 0 none none 3) 0 (.named "pool1") ()
      ⟨"h", -1, 9898, some "u", some "p"⟩ (by decide) ⟨by decide, by decide⟩ (by decide)⟩

/-- C3 as stated fails: an explicit call with port -1 and timeout -1 has an
out-of-range port, yet each of the three functions reports "Timeout is out of
range." and not "PCP port out of range.". -/
theorem port_before_timeout_refuted :
    resolve (env1 [] []) (.explicit "h" (-1) (-1) "u" "p")
      = .ok ⟨"h", -1, -1, some "u", some "p"⟩ ∧
    ((-1 : Int) < 0 ∨ (65535 : Int) < -1) ∧
    FailsWith (env1 [] []) (client1 0 none none 3) 0 (.explicit "h" (-1) (-1) "u" "p") ()
      "Timeout is out of range." ∧
    ¬ FailsWith (env1 [] []) (client1 0 none none 3) 0 (.explicit "h" (-1) (-1) "u" "p") ()
      "PCP port out of range." := by
  refine ⟨by decide, by decide, ⟨by decide, by decide, by decide⟩, ?_⟩
  rintro ⟨-, -, h⟩
  revert h
  decide

/-- C3, amended. When several checks fail for the same call, the error reported
is the first failing one in the order timeout, port, user, password
(`_pcp_node_info` checks `nodeID` before them): with the parameters resolved to
`v`, each of the three functions reports "Timeout is out of range." if the
timeout is negative, else "PCP port out of range." if the port is outside
0..65535, else "No user given." if the user is missing, else "No password
given." if the password is missing; no call is made to the wire client. -/
theorem first_failing_check_reported {σ : Type} (env : Env) (w : PcpClient σ) (nodeID : Int)
    (a : Args) (s : σ) (v : Params) (hres : resolve env a = .ok v)
    (hnode : NodeIdInRange env nodeID) :
    (v.timeout < 0 → FailsWith env w nodeID a s "Timeout is out of range.") ∧
    (0 ≤ v.timeout → (v.port < 0 ∨ 65535 < v.port) →
      FailsWith env w nodeID a s "PCP port out of range.") ∧
    (0 ≤ v.timeout → (0 ≤ v.port ∧ v.port ≤ 65535) → v.user = none →
      FailsWith env w nodeID a s "No user given.") ∧
    (0 ≤ v.timeout → (0 ≤ v.port ∧ v.port ≤ 65535) → v.user ≠ none → v.pass = none →
      FailsWith env w nodeID a s "No password given.") :=
  ⟨failsWith_timeout env w nodeID a s v hres hnode,
    failsWith_port env w nodeID a s v hres hnode,
    failsWith_user env w nodeID a s v hres hnode,
    failsWith_pass env w nodeID a s v hres hnode⟩

/-- C3, amended, at a named endpoint with port -7, timeout -3 and no
credentials: the timeout error is the one reported. -/
theorem first_failing_check_reported_witness :
    FailsWith (env1 [⟨"port", "-7"⟩, ⟨"timeout", "-3"⟩] []) (client1 0 none none 3) 0
      (.named "pool1") () "Timeout is out of range." :=
  (first_failing_check_reported (env1 [⟨"port", "-7"⟩, ⟨"timeout", "-3"⟩] [])
    (client1 0 none none 3) 0 (.named "pool1") () ⟨"pool1", -3, -7, none, none⟩ (by decide)
    ⟨by decide, by decide⟩).1 (by decide)

/-- C4 as stated fails: the empty string is accepted as user and as password.
An explicit call with user "" (and one with password "") passes the checks and
`pcp_connect` is called with the empty string; so does a named call whose
mapping has the options `user` and `password` set to "". -/
theorem empty_user_refuted :
    _pcp_node_count (env1 [] []) (client1 0 none none 3) (.explicit "h" 10 9898 "" "p") ()
      = (.ok 3, [.set_timeout 10, .connect "h" 9898 "" "p" 0, .node_count, .disconnect], ()) ∧
    _pcp_node_count (env1 [] []) (client1 0 none none 3) (.explicit "h" 10 9898 "u" "") ()
      = (.ok 3, [.set_timeout 10, .connect "h" 9898 "u" "" 0, .node_count, .disconnect], ()) ∧
    _pcp_node_count (env1 [⟨"host", "h"⟩, ⟨"port", "9898"⟩, ⟨"timeout", "10"⟩]
        [⟨"user", ""⟩, ⟨"password", ""⟩]) (client1 0 none none 3) (.named "pool1") ()
      = (.ok 3, [.set_timeout 10, .connect "h" 9898 "" "" 0, .node_count, .disconnect], ()) := by
  decide

/-- C4, amended. For every call, in either argument shape, with a valid timeout
and port: when the resolved user is missing (`NULL`: the mapping of the named
shape has no `user` option) the call raises "No user given."; when the user is
present and the password is missing it raises "No password given."; in both
cases no call is made to the wire client. The checks pass, and the session is
opened with `pcp_set_timeout` and `pcp_connect` on the resolved values, exactly
when user and password are both present; an empty string counts as present. -/
theorem missing_credentials_rejected {σ : Type} (env : Env) (w : PcpClient σ) (nodeID : Int)
    (a : Args) (s : σ) (v : Params) (hres : resolve env a = .ok v)
    (hnode : NodeIdInRange env nodeID) (htimeout : 0 ≤ v.timeout)
    (hport : 0 ≤ v.port ∧ v.port ≤ 65535) :
    (v.user = none → FailsWith env w nodeID a s "No user given.") ∧
    (v.user ≠ none → v.pass = none → FailsWith env w nodeID a s "No password given.") ∧
    (∀ user pass, v.user = some user → v.pass = some pass →
      OpensWith env w nodeID a s
        [.set_timeout v.timeout,
          .connect v.host_or_srv v.port user pass
            (w.pcp_connect v.host_or_srv v.port user pass (w.pcp_set_timeout v.timeout s)).1]) :=
  ⟨failsWith_user env w nodeID a s v hres hnode htimeout hport,
    failsWith_pass env w nodeID a s v hres hnode htimeout hport,
    fun user pass hu hpw => opensWith_valid env w nodeID a s v user pass hres hnode htimeout
      hport hu hpw⟩

/-- C4, amended, at a named endpoint whose mapping has a `user` option and no
`password` option. -/
theorem missing_credentials_rejected_witness :
    FailsWith (env1 [⟨"host", "h"⟩, ⟨"port", "9898"⟩, ⟨"timeout", "10"⟩] [⟨"user", "u"⟩])
      (client1 0 none none 3) 0 (.named "pool1") () "No password given." :=
  (missing_credentials_rejected
    (env1 [⟨"host", "h"⟩, ⟨"port", "9898"⟩, ⟨"timeout", "10"⟩] [⟨"user", "u"⟩])
    (client1 0 none none 3) 0 (.named "pool1") () ⟨"h", 10, 9898, some "u", none⟩ (by decide)
    ⟨by decide, by decide⟩ (by decide) (by decide)).2.1 (by decide) (by decide)

/-! ## The session -/

theorem digitChar_isdigit (m : Nat) (h : m < 10) :
    isdigit (Nat.digitChar m) = true ∧ (Nat.digitChar m).toNat - 48 = m := by
  interval_cases m <;> decide

theorem digitsValue_acc (l : List Char) (hl : AllDigits l) :
    ∀ acc, digitsValue acc l = acc * 10 ^ l.length + digitsValue 0 l := by
  induction l with
  | nil => intro acc; simp [digitsValue]
  | cons c cs ih =>
    intro acc
    have hc : isdigit c = true := hl c (List.mem_cons_self _ _)
    have hcs : AllDigits cs := fun d hd => hl d (List.mem_cons_of_mem _ hd)
    simp only [digitsValue, hc, if_true, List.length_cons]
    rw [ih hcs (acc * 10 + (c.toNat - 48)), ih hcs (0 * 10 + (c.toNat - 48))]
    ring

theorem digitsValue_toDigitsCore (fuel : Nat) :
    ∀ (n : Nat) (ds : List Char), n < fuel → AllDigits ds →
      AllDigits (Nat.toDigitsCore 10 fuel n ds) ∧
      Nat.toDigitsCore 10 fuel n ds ≠ [] ∧
      digitsValue 0 (Nat.toDigitsCore 10 fuel n ds)
        = n * 10 ^ ds.length + digitsValue 0 ds := by
  induction fuel with
  | zero => intro n ds h; omega
  | succ f ih =>
    intro n ds hn hds
    have hd := digitChar_isdigit (n % 10) (Nat.mod_lt _ (by decide))
    have hds1 : AllDigits (Nat.digitChar (n % 10) :: ds) := by
      intro c hc
      rcases List.mem_cons.mp hc with rfl | hc
      · exact hd.1
      · exact hds c hc
    have hval : digitsValue 0 (Nat.digitChar (n % 10) :: ds)
        = (n % 10) * 10 ^ ds.length + digitsValue 0 ds := by
      simp only [digitsValue, hd.1, if_true, hd.2]
      rw [digitsValue_acc ds hds]
      ring
    unfold Nat.toDigitsCore
    by_cases h0 : n / 10 = 0
    · simp only [h0, if_true]
      refine ⟨hds1, by simp, ?_⟩
      rw [hval]
      have : n % 10 = n := by omega
      rw [this]
    · simp only [h0, if_false]
      obtain ⟨h1, h2, h3⟩ := ih (n / 10) (Nat.digitChar (n % 10) :: ds) (by omega) hds1
      refine ⟨h1, h2, ?_⟩
      rw [h3, hval, List.length_cons, pow_succ]
      have : n = n / 10 * 10 + n % 10 := by omega
      conv_rhs => rw [this]
      ring

theorem signedValue_digits (l : List Char) (hl : AllDigits l) (hne : l ≠ []) :
    signedValue (skipSpaces l) = (digitsValue 0 l : Int) := by
  cases l with
  | nil => exact absurd rfl hne
  | cons c cs =>
    have hc : isdigit c = true := hl c (List.mem_cons_self _ _)
    have hc1 : 48 ≤ c.toNat ∧ c.toNat ≤ 57 := by
      simpa [isdigit] using hc
    have hsp : isspace c = false := by
      simp only [isspace, Bool.or_eq_false_iff, decide_eq_false_iff_not, Bool.and_eq_false_imp,
        decide_eq_true_eq]
      omega
    have h45 : c.toNat ≠ 45 := by omega
    have h43 : c.toNat ≠ 43 := by omega
    simp only [skipSpaces, hsp]
    simp only [Bool.false_eq_true, if_false]
    unfold signedValue
    dsimp only
    rw [if_neg h45, if_neg h43]

theorem strtol_repr (n : Nat) : signedValue (skipSpaces (Nat.repr n).toList) = (n : Int) := by
  obtain ⟨h1, h2, h3⟩ := digitsValue_toDigitsCore (n + 1) n [] (by omega) (by intro c hc; cases hc)
  have : (Nat.repr n).toList = Nat.toDigitsCore 10 (n + 1) n [] := rfl
  rw [this, signedValue_digits _ h1 h2, h3]
  simp [digitsValue]

/-- The decimal writing of an integer of the range of a C `int` is read back by
`atoi` as that integer. -/
theorem atoi_toString (p : Int) (h0 : -2147483648 ≤ p) (h1 : p ≤ 2147483647) :
    atoi (toString p) = p := by
  have hs : signedValue (skipSpaces (toString p).toList) = p := by
    cases p with
    | ofNat m => exact strtol_repr m
    | negSucc m =>
      have h : (toString (Int.negSucc m)).toList = '-' :: (Nat.repr (m + 1)).toList := rfl
      rw [h]
      obtain ⟨h1, h2, h3⟩ :=
        digitsValue_toDigitsCore (m + 1 + 1) (m + 1) [] (by omega) (by intro c hc; cases hc)
      have h4 : (Nat.repr (m + 1)).toList = Nat.toDigitsCore 10 (m + 1 + 1) (m + 1) [] := rfl
      have hsp : isspace '-' = false := by decide
      have h45 : ('-' : Char).toNat = 45 := by decide
      simp only [skipSpaces, hsp, h4]
      simp only [Bool.false_eq_true, if_false]
      unfold signedValue
      dsimp only
      rw [if_pos h45, h3]
      simp only [digitsValue, List.length_nil, pow_zero, mul_one, add_zero, Int.negSucc_eq]
      push_cast
      ring
  unfold atoi strtol
  rw [hs]
  unfold int32
  omega

/-! ## The two argument shapes -/

theorem serverOption_user_pass (v : Params) (d : DefElem) :
    (serverOption v d).user = v.user ∧ (serverOption v d).pass = v.pass := by
  unfold serverOption
  split_ifs <;> exact ⟨rfl, rfl⟩

theorem foldl_serverOption_user_pass (l : List DefElem) :
    ∀ v : Params, (l.foldl serverOption v).user = v.user ∧
      (l.foldl serverOption v).pass = v.pass := by
  induction l with
  | nil => intro v; exact ⟨rfl, rfl⟩
  | cons d l ih =>
    intro v
    rw [List.foldl_cons, (ih _).1, (ih _).2]
    exact serverOption_user_pass v d

theorem mappingOption_endpoint (v : Params) (d : DefElem) :
    (mappingOption v d).host_or_srv = v.host_or_srv ∧
      (mappingOption v d).timeout = v.timeout ∧ (mappingOption v d).port = v.port := by
  unfold mappingOption
  split_ifs <;> exact ⟨rfl, rfl, rfl⟩

theorem foldl_mappingOption_endpoint (l : List DefElem) :
    ∀ v : Params, (l.foldl mappingOption v).host_or_srv = v.host_or_srv ∧
      (l.foldl mappingOption v).timeout = v.timeout ∧
      (l.foldl mappingOption v).port = v.port := by
  induction l with
  | nil => intro v; exact ⟨rfl, rfl, rfl⟩
  | cons d l ih =>
    intro v
    rw [List.foldl_cons, (ih _).1, (ih _).2.1, (ih _).2.2]
    exact mappingOption_endpoint v d

/-- Options of other names leave a variable of the server loop as it is. -/
theorem foldl_serverOption_skip (l : List DefElem) :
    ∀ v : Params,
      ((∀ d ∈ l, d.defname ≠ "host") → (l.foldl serverOption v).host_or_srv = v.host_or_srv) ∧
      ((∀ d ∈ l, d.defname ≠ "port") → (l.foldl serverOption v).port = v.port) ∧
      ((∀ d ∈ l, d.defname ≠ "timeout") → (l.foldl serverOption v).timeout = v.timeout) := by
  induction l with
  | nil => intro v; exact ⟨fun _ => rfl, fun _ => rfl, fun _ => rfl⟩
  | cons d l ih =>
    intro v
    rw [List.foldl_cons]
    refine ⟨fun h => ?_, fun h => ?_, fun h => ?_⟩
    · rw [(ih _).1 (fun e he => h e (List.mem_cons_of_mem _ he))]
      have hd := h d (List.mem_cons_self _ _)
      unfold serverOption
      split_ifs <;> first | rfl | contradiction
    · rw [(ih _).2.1 (fun e he => h e (List.mem_cons_of_mem _ he))]
      have hd := h d (List.mem_cons_self _ _)
      unfold serverOption
      split_ifs <;> rfl
    · rw [(ih _).2.2 (fun e he => h e (List.mem_cons_of_mem _ he))]
      have hd := h d (List.mem_cons_self _ _)
      unfold serverOption
      split_ifs <;> rfl

/-- Options of other names leave a variable of the mapping loop as it is. -/
theorem foldl_mappingOption_skip (l : List DefElem) :
    ∀ v : Params,
      ((∀ d ∈ l, d.defname ≠ "user") → (l.foldl mappingOption v).user = v.user) ∧
      ((∀ d ∈ l, d.defname ≠ "password") → (l.foldl mappingOption v).pass = v.pass) := by
  induction l with
  | nil => intro v; exact ⟨fun _ => rfl, fun _ => rfl⟩
  | cons d l ih =>
    intro v
    rw [List.foldl_cons]
    refine ⟨fun h => ?_, fun h => ?_⟩
    · rw [(ih _).1 (fun e he => h e (List.mem_cons_of_mem _ he))]
      have hd := h d (List.mem_cons_self _ _)
      unfold mappingOption
      split_ifs <;> first | rfl | contradiction
    · rw [(ih _).2 (fun e he => h e (List.mem_cons_of_mem _ he))]
      have hd := h d (List.mem_cons_self _ _)
      unfold mappingOption
      split_ifs <;> rfl

/-- A list that is, up to order, `d0` and a rest splits around `d0`, and what is
on either side belongs to the rest. -/
theorem split_of_perm_cons (l rest : List DefElem) (d0 : DefElem)
    (h : l.Perm (d0 :: rest)) :
    ∃ l1 l2, l = l1 ++ d0 :: l2 ∧ ∀ d, d ∈ l1 ∨ d ∈ l2 → d ∈ rest := by
  obtain ⟨l1, l2, hl⟩ := List.append_of_mem (h.mem_iff.mpr (List.mem_cons_self _ _))
  refine ⟨l1, l2, hl, fun d hd => ?_⟩
  have h1 : (d0 :: (l1 ++ l2)).Perm (d0 :: rest) := by
    rw [hl] at h
    exact (List.perm_middle.symm.trans h)
  have h2 : (l1 ++ l2).Perm rest := h1.cons_inv
  exact h2.mem_iff.mp (List.mem_append.mpr hd)

/-- The server loop over a list that holds, in any place, exactly one option of
a known name stores the value of that option. -/
theorem foldl_serverOption_pick (l rest : List DefElem) (d0 : DefElem) (v : Params)
    (hperm : l.Perm (d0 :: rest)) :
    (d0.defname = "host" → (∀ d ∈ rest, d.defname ≠ "host") →
      (l.foldl serverOption v).host_or_srv = d0.arg) ∧
    (d0.defname = "port" → (∀ d ∈ rest, d.defname ≠ "port") →
      (l.foldl serverOption v).port = int16 (atoi d0.arg)) ∧
    (d0.defname = "timeout" → (∀ d ∈ rest, d.defname ≠ "timeout") →
      (l.foldl serverOption v).timeout = int16 (atoi d0.arg)) := by
  obtain ⟨l1, l2, rfl, hmem⟩ := split_of_perm_cons l rest d0 hperm
  refine ⟨fun hd0 hrest => ?_, fun hd0 hrest => ?_, fun hd0 hrest => ?_⟩
  · rw [List.foldl_append, List.foldl_cons,
      (foldl_serverOption_skip l2 _).1 (fun d hd => hrest d (hmem d (Or.inr hd)))]
    simp [serverOption, hd0]
  · rw [List.foldl_append, List.foldl_cons,
      (foldl_serverOption_skip l2 _).2.1 (fun d hd => hrest d (hmem d (Or.inr hd)))]
    simp [serverOption, hd0]
  · rw [List.foldl_append, List.foldl_cons,
      (foldl_serverOption_skip l2 _).2.2 (fun d hd => hrest d (hmem d (Or.inr hd)))]
    simp [serverOption, hd0]

/-- The mapping loop over a list that holds, in any place, exactly one option of
a known name stores the value of that option. -/
theorem foldl_mappingOption_pick (l rest : List DefElem) (d0 : DefElem) (v : Params)
    (hperm : l.Perm (d0 :: rest)) :
    (d0.defname = "user" → (∀ d ∈ rest, d.defname ≠ "user") →
      (l.foldl mappingOption v).user = some d0.arg) ∧
    (d0.defname = "password" → (∀ d ∈ rest, d.defname ≠ "password") →
      (l.foldl mappingOption v).pass = some d0.arg) := by
  obtain ⟨l1, l2, rfl, hmem⟩ := split_of_perm_cons l rest d0 hperm
  refine ⟨fun hd0 hrest => ?_, fun hd0 hrest => ?_⟩
  · rw [List.foldl_append, List.foldl_cons,
      (foldl_mappingOption_skip l2 _).1 (fun d hd => hrest d (hmem d (Or.inr hd)))]
    simp [mappingOption, hd0]
  · rw [List.foldl_append, List.foldl_cons,
      (foldl_mappingOption_skip l2 _).2 (fun d hd => hrest d (hmem d (Or.inr hd)))]
    simp [mappingOption, hd0]

theorem Params.eq_of_fields (v : Params) (host : String) (timeout port : Int)
    (user pass : Option String) (h1 : v.host_or_srv = host) (h2 : v.timeout = timeout)
    (h3 : v.port = port) (h4 : v.user = user) (h5 : v.pass = pass) :
    v = ⟨host, timeout, port, user, pass⟩ := by
  cases v
  simp only [Params.mk.injEq]
  exact ⟨h1, h2, h3, h4, h5⟩

/-- The two loops of the named shape, over option lists that hold the five known
options once each, in any order and among options of other names. -/
theorem named_loops (srv h sp st u pw : String) (serverOptions userOptions : List DefElem)
    (extra1 extra2 : List DefElem)
    (hopts : serverOptions.Perm ([⟨"host", h⟩, ⟨"port", sp⟩, ⟨"timeout", st⟩] ++ extra1))
    (hextra1 : ∀ d ∈ extra1, d.defname ≠ "host" ∧ d.defname ≠ "port" ∧ d.defname ≠ "timeout")
    (hmopts : userOptions.Perm ([⟨"user", u⟩, ⟨"password", pw⟩] ++ extra2))
    (hextra2 : ∀ d ∈ extra2, d.defname ≠ "user" ∧ d.defname ≠ "password") :
    userOptions.foldl mappingOption (serverOptions.foldl serverOption ⟨srv, -1, -1, none, none⟩)
      = ⟨h, int16 (atoi st), int16 (atoi sp), some u, some pw⟩ := by
  have hhost : serverOptions.Perm (⟨"host", h⟩ :: (⟨"port", sp⟩ :: ⟨"timeout", st⟩ :: extra1)) :=
    hopts
  have hport : serverOptions.Perm (⟨"port", sp⟩ :: (⟨"host", h⟩ :: ⟨"timeout", st⟩ :: extra1)) :=
    hopts.trans (List.Perm.swap _ _ _)
  have htime : serverOptions.Perm (⟨"timeout", st⟩ :: (⟨"host", h⟩ :: ⟨"port", sp⟩ :: extra1)) :=
    hopts.trans (((List.Perm.swap _ _ _).cons _).trans (List.Perm.swap _ _ _))
  have huser : userOptions.Perm (⟨"user", u⟩ :: (⟨"password", pw⟩ :: extra2)) := hmopts
  have hpass : userOptions.Perm (⟨"password", pw⟩ :: (⟨"user", u⟩ :: extra2)) :=
    hmopts.trans (List.Perm.swap _ _ _)
  apply Params.eq_of_fields
  · rw [(foldl_mappingOption_endpoint _ _).1]
    refine (foldl_serverOption_pick _ _ _ _ hhost).1 rfl ?_
    intro d hd
    simp only [List.mem_cons] at hd
    rcases hd with rfl | rfl | hd
    · dsimp only; decide
    · dsimp only; decide
    · exact (hextra1 d hd).1
  · rw [(foldl_mappingOption_endpoint _ _).2.1]
    refine (foldl_serverOption_pick _ _ _ _ htime).2.2 rfl ?_
    intro d hd
    simp only [List.mem_cons] at hd
    rcases hd with rfl | rfl | hd
    · dsimp only; decide
    · dsimp only; decide
    · exact (hextra1 d hd).2.2
  · rw [(foldl_mappingOption_endpoint _ _).2.2]
    refine (foldl_serverOption_pick _ _ _ _ hport).2.1 rfl ?_
    intro d hd
    simp only [List.mem_cons] at hd
    rcases hd with rfl | rfl | hd
    · dsimp only; decide
    · dsimp only; decide
    · exact (hextra1 d hd).2.1
  · refine (foldl_mappingOption_pick _ _ _ _ huser).1 rfl ?_
    intro d hd
    simp only [List.mem_cons] at hd
    rcases hd with rfl | hd
    · dsimp only; decide
    · exact (hextra2 d hd).1
  · refine (foldl_mappingOption_pick _ _ _ _ hpass).2 rfl ?_
    intro d hd
    simp only [List.mem_cons] at hd
    rcases hd with rfl | hd
    · dsimp only; decide
    · exact (hextra2 d hd).2

/-! ## Claim on the two argument shapes -/

/-- C6. For every h, p, t, u, pw: a named call whose endpoint has the options
host = h, port = a text that `atoi` reads as p, timeout = a text that `atoi`
reads as t, and whose mapping for the caller has the options user = u and
password = pw, resolves to the same variables (host, timeout, port, user, pass)
as the explicit call with the values (h, t, p, u, pw); so each of the three
functions gives the same result, makes the same calls to the wire client with
the same arguments and leaves it in the same state. The options may come in any
order and among options of other names, which are ignored. -/
theorem named_resolves_as_explicit (env : Env) (srv h sp st u pw : String) (p t : Int)
    (foreign_server : ForeignServer) (user_mapping : UserMapping)
    (extra1 extra2 : List DefElem)
    (hsrv : env.GetForeignServerByName srv = .ok foreign_server)
    (hmap : env.GetUserMapping env.GetUserId foreign_server.serverid = .ok user_mapping)
    (hport : atoi sp = p) (htimeout : atoi st = t)
    (hopts : foreign_server.options.Perm
      ([⟨"host", h⟩, ⟨"port", sp⟩, ⟨"timeout", st⟩] ++ extra1))
    (hextra1 : ∀ d ∈ extra1, d.defname ≠ "host" ∧ d.defname ≠ "port" ∧ d.defname ≠ "timeout")
    (hmopts : user_mapping.options.Perm ([⟨"user", u⟩, ⟨"password", pw⟩] ++ extra2))
    (hextra2 : ∀ d ∈ extra2, d.defname ≠ "user" ∧ d.defname ≠ "password") :
    resolve env (.named srv) = resolve env (.explicit h t p u pw) ∧
    ∀ (σ : Type) (w : PcpClient σ) (nodeID : Int) (fn_extra : Option FuncCallContext) (s : σ),
      _pcp_node_info env w nodeID (.named srv) s
        = _pcp_node_info env w nodeID (.explicit h t p u pw) s ∧
      _pcp_pool_status env w (.named srv) fn_extra s
        = _pcp_pool_status env w (.explicit h t p u pw) fn_extra s ∧
      _pcp_node_count env w (.named srv) s = _pcp_node_count env w (.explicit h t p u pw) s := by
  have hres : resolve env (.named srv) = resolve env (.explicit h t p u pw) := by
    simp only [resolve, hsrv, hmap, PG_GETARG_INT16]
    rw [named_loops srv h sp st u pw _ _ extra1 extra2 hopts hextra1 hmopts hextra2, hport,
      htimeout]
  refine ⟨hres, fun σ w nodeID fn_extra s => ⟨?_, ?_, ?_⟩⟩
  · unfold _pcp_node_info
    rw [hres]
  · unfold _pcp_pool_status pool_status_firstcall
    rw [hres]
  · unfold _pcp_node_count
    rw [hres]

/-- C6 at an endpoint whose options come in another order, with an option of an
unknown name among them, port written 5432 and timeout written 30. -/
theorem named_resolves_as_explicit_witness :
    resolve (env1 [⟨"timeout", "30"⟩, ⟨"sslmode", "off"⟩, ⟨"port", "5432"⟩, ⟨"host", "n1"⟩]
        [⟨"password", "secret"⟩, ⟨"user", "admin"⟩]) (.named "pool1")
      = .ok ⟨"n1", 30, 5432, some "admin", some "secret"⟩ ∧
    resolve (env1 [⟨"timeout", "30"⟩, ⟨"sslmode", "off"⟩, ⟨"port", "5432"⟩, ⟨"host", "n1"⟩]
        [⟨"password", "secret"⟩, ⟨"user", "admin"⟩]) (.named "pool1")
      = resolve (env1 [⟨"timeout", "30"⟩, ⟨"sslmode", "off"⟩, ⟨"port", "5432"⟩, ⟨"host", "n1"⟩]
        [⟨"password", "secret"⟩, ⟨"user", "admin"⟩]) (.explicit "n1" 30 5432 "admin" "secret") :=
  ⟨by decide,
    (named_resolves_as_explicit
      (env1 [⟨"timeout", "30"⟩, ⟨"sslmode", "off"⟩, ⟨"port", "5432"⟩, ⟨"host", "n1"⟩]
        [⟨"password", "secret"⟩, ⟨"user", "admin"⟩])
      "pool1" "n1" "5432" "30" "admin" "secret" 5432 30
      ⟨1, [⟨"timeout", "30"⟩, ⟨"sslmode", "off"⟩, ⟨"port", "5432"⟩, ⟨"host", "n1"⟩]⟩
      ⟨[⟨"password", "secret"⟩, ⟨"user", "admin"⟩]⟩ [⟨"sslmode", "off"⟩] []
      (by decide) (by decide) (by decide) (by decide) (by decide) (by decide) (by decide)
      (by decide)).1⟩

/-! ## Results -/

theorem node_info_connected {σ : Type} (env : Env) (w : PcpClient σ) (nodeID : Int) (a : Args)
    (s s2 : σ) (hc : Connects env w a s s2) (hnode : NodeIdInRange env nodeID) :
    (_pcp_node_info env w nodeID a s).1 =
      match (w.pcp_node_info (PG_GETARG_INT16 nodeID) s2).1 with
      | none => .error "Cannot get node information."
      | some backend_info =>
        .ok ⟨backend_info.backend_hostname,
          DatumGetInt32 (Int16GetDatum backend_info.backend_port),
          statusLabel backend_info.backend_status,
          DatumGetInt32
            (Float8GetDatum (backend_info.backend_weight / (env.RAND_MAX : ℚ)))⟩ := by
  obtain ⟨v, user, pass, hres, ht, hp0, hp1, hu, hpw, hconn⟩ := hc
  obtain ⟨h0, h1⟩ := hnode
  have hp : ¬ (v.port < 0 ∨ v.port > 65535) := by omega
  have hn : ¬ (PG_GETARG_INT16 nodeID < 0 ∨ PG_GETARG_INT16 nodeID ≥ env.MAX_NUM_BACKENDS) := by
    omega
  simp only [_pcp_node_info, hres, not_lt.mpr ht, hp, hn, hu, hpw, hconn, if_false, ne_eq,
    not_true_eq_false]
  cases (w.pcp_node_info (PG_GETARG_INT16 nodeID) s2).1 <;> rfl

theorem node_count_connected {σ : Type} (env : Env) (w : PcpClient σ) (a : Args)
    (s s2 : σ) (hc : Connects env w a s s2) :
    (_pcp_node_count env w a s).1 =
      if int16 (w.pcp_node_count s2).1 = -1 then .error "Cannot get node count."
      else .ok (int16 (w.pcp_node_count s2).1) := by
  obtain ⟨v, user, pass, hres, ht, hp0, hp1, hu, hpw, hconn⟩ := hc
  have hp : ¬ (v.port < 0 ∨ v.port > 65535) := by omega
  simp only [_pcp_node_count, hres, not_lt.mpr ht, hp, hu, hpw, hconn, if_false, ne_eq,
    not_true_eq_false]
  split <;> rfl

theorem pool_status_connected {σ : Type} (env : Env) (w : PcpClient σ) (a : Args)
    (s s2 : σ) (hc : Connects env w a s s2) (status : List POOL_REPORT_CONFIG) (nrows : Int)
    (hreply : (w.pcp_pool_status s2).1 = some (status, nrows)) :
    (pool_status_firstcall env w a s).1
      = .ok (if nrows > 0 then some ⟨0, nrows, status⟩ else none) := by
  obtain ⟨v, user, pass, hres, ht, hp0, hp1, hu, hpw, hconn⟩ := hc
  have hp : ¬ (v.port < 0 ∨ v.port > 65535) := by omega
  simp only [pool_status_firstcall, hres, not_lt.mpr ht, hp, hu, hpw, hconn, if_false, ne_eq,
    not_true_eq_false, hreply]

theorem int16_of_mem (x : Int) (h0 : -32768 ≤ x) (h1 : x ≤ 32767) : int16 x = x := by
  unfold int16
  omega

/-! ## Claims on the results -/

/-- For every `BackendInfo` returned by the wire client with hostname h, port p
in 0..65535 and one of the four statuses, `_pcp_node_info` with valid parameters
returns a row with hostname h, port p and the label of the status; the column
`weight` holds four bytes of the float8 datum of w / RAND_MAX. -/
theorem node_info_fields {σ : Type} (env : Env) (w : PcpClient σ) (nodeID : Int) (a : Args)
    (s s2 : σ) (b : BackendInfo) (hc : Connects env w a s s2)
    (hnode : NodeIdInRange env nodeID)
    (hreply : (w.pcp_node_info (PG_GETARG_INT16 nodeID) s2).1 = some b)
    (hport : 0 ≤ b.backend_port ∧ b.backend_port ≤ 65535)
    (hstatus : ∀ code, b.backend_status ≠ .unlisted code) :
    ∃ label,
      (_pcp_node_info env w nodeID a s).1
        = .ok ⟨b.backend_hostname, b.backend_port, some label,
            DatumGetInt32 (Float8GetDatum (b.backend_weight / (env.RAND_MAX : ℚ)))⟩ ∧
      (b.backend_status = .CON_UNUSED → label = "Connection unused") ∧
      (b.backend_status = .CON_CONNECT_WAIT → label = "Waiting for connection to start") ∧
      (b.backend_status = .CON_UP → label = "Connection in use") ∧
      (b.backend_status = .CON_DOWN → label = "Disconnected") := by
  have hp : DatumGetInt32 (Int16GetDatum b.backend_port) = b.backend_port := by
    unfold DatumGetInt32 Int16GetDatum int32
    omega
  rw [node_info_connected env w nodeID a s s2 hc hnode, hreply]
  simp only [hp]
  cases hst : b.backend_status with
  | CON_UNUSED => exact ⟨_, rfl, by simp⟩
  | CON_CONNECT_WAIT => exact ⟨_, rfl, by simp⟩
  | CON_UP => exact ⟨_, rfl, by simp⟩
  | CON_DOWN => exact ⟨_, rfl, by simp⟩
  | unlisted code => exact absurd hst (hstatus code)

/-- The bits of the double nearest to the quotient of two coprime positive
numbers. -/
theorem float8_bits_ratio (n d : Nat) (hd : 0 < d) (hn : 0 < n) (h : Nat.Coprime n d) :
    float8_bits ((n : ℚ) / (d : ℚ)) = float8_of_ratio false n d := by
  have hd1 : (0 : ℤ) < (d : ℤ) := by exact_mod_cast hd
  have hq : ((n : ℚ) / (d : ℚ)) = ((n : ℤ) : ℚ) / ((d : ℤ) : ℚ) := by push_cast; rfl
  have hnum : ((n : ℚ) / (d : ℚ)).num = (n : ℤ) := by
    rw [hq]
    exact Rat.num_div_eq_of_coprime hd1 (by simpa using h)
  have hden : ((n : ℚ) / (d : ℚ)).den = d := by
    have h1 := Rat.den_div_eq_of_coprime hd1
      (show Nat.Coprime (n : ℤ).natAbs (d : ℤ).natAbs by simpa using h)
    rw [← hq] at h1
    exact_mod_cast h1
  have hpos : (0 : ℚ) < (n : ℚ) / (d : ℚ) := by positivity
  unfold float8_bits
  rw [if_neg (ne_of_gt hpos), hnum, hden]
  simp [not_lt.mpr hpos.le]

/-- The encoding at known doubles: 1 is 0x3ff0000000000000, the double nearest to
1 / 10 is 0x3fb999999999999a, the one nearest to 2 / 3 is 0x3fe5555555555555,
-3 / 8 is 0xbfd8000000000000 and 10 ^ 22 is 0x4480f0cf064dd592. -/
theorem float8_of_ratio_examples :
    float8_of_ratio false 1 1 = 4607182418800017408 ∧
    float8_of_ratio false 1 10 = 4591870180066957722 ∧
    float8_of_ratio false 2 3 = 4604180019048437077 ∧
    float8_of_ratio true 3 8 = 13823799056213737472 ∧
    float8_of_ratio false 10000000000000000000000 1 = 4936209963552724370 := by
  decide

/-- The double nearest to 1073741823 / 2147483647 has the bits
0x3fdfffffffc00000, and the double 1 the bits 0x3ff0000000000000. -/
theorem float8_bits_examples :
    float8_bits (1073741823 / 2147483647) = 4602678819168452608 ∧
    float8_bits 1 = 4607182418800017408 := by
  constructor
  · have h := float8_bits_ratio 1073741823 2147483647 (by decide) (by decide) (by decide)
    have h2 : float8_of_ratio false 1073741823 2147483647 = 4602678819168452608 := by decide
    rw [h2] at h
    simpa using h
  · have h := float8_bits_ratio 1 1 (by decide) (by decide) (by decide)
    have h2 : float8_of_ratio false 1 1 = 4607182418800017408 := by decide
    rw [h2] at h
    simpa using h

/-- C7 at the failing input: the wire client returns the backend "n1", port
5432, status CON_UP, weight 1073741823, and `RAND_MAX` is 2147483647. The row
has hostname "n1", port 5432 and the label "Connection in use", but its column
`weight`, declared `FLOAT4OID` and filled with `Float8GetDatum`, keeps the low
four bytes 0xffc00000 of the double 0.49999999976..., which read as a float4 are
not a number, not about 0.5. For the weight 2147483647 the column keeps the
bytes 0, which read 0 and not 1. -/
theorem node_info_weight_is_not_the_quotient :
    _pcp_node_info (env1 [] [])
        (client1 0 (some ⟨"n1", 5432, .CON_UP, 1073741823⟩) none 3) 0
        (.explicit "pool" 10 9898 "u" "p") ()
      = (.ok ⟨"n1", 5432, some "Connection in use", -4194304⟩,
          [.set_timeout 10, .connect "pool" 9898 "u" "p" 0, .node_info 0, .disconnect], ()) ∧
    (-4194304 : Int) % 4294967296 = 4290772992 ∧
    DatumGetFloat4 (-4194304) = .nan ∧
    _pcp_node_info (env1 [] [])
        (client1 0 (some ⟨"n1", 5432, .CON_UP, 2147483647⟩) none 3) 0
        (.explicit "pool" 10 9898 "u" "p") ()
      = (.ok ⟨"n1", 5432, some "Connection in use", 0⟩,
          [.set_timeout 10, .connect "pool" 9898 "u" "p" 0, .node_info 0, .disconnect], ()) ∧
    DatumGetFloat4 0 = .finite 0 := by
  refine ⟨?_, by decide, by decide, ?_, by simp [DatumGetFloat4]⟩
  · simp [_pcp_node_info, resolve, env1, client1, PG_GETARG_INT16, int16, statusLabel,
      DatumGetInt32, Int16GetDatum, int32, Float8GetDatum, float8_bits_examples.1]
  · simp [_pcp_node_info, resolve, env1, client1, PG_GETARG_INT16, int16, statusLabel,
      DatumGetInt32, Int16GetDatum, int32, Float8GetDatum, float8_bits_examples.2]

/-- C8 at the failing input: the wire client returns a `BackendInfo` whose
status is the code 4, none of the four enumerators. `_pcp_node_info` raises no
error: it disconnects and returns a row whose `status` was never assigned. -/
theorem unlisted_status_returns_row :
    _pcp_node_info (env1 [] [])
        (client1 0 (some ⟨"n1", 5432, .unlisted 4, 0⟩) none 3) 0
        (.explicit "pool" 10 9898 "u" "p") ()
      = (.ok ⟨"n1", 5432, none, 0⟩,
          [.set_timeout 10, .connect "pool" 9898 "u" "p" 0, .node_info 0, .disconnect], ()) := by
  simp [_pcp_node_info, resolve, env1, client1, PG_GETARG_INT16, int16, statusLabel,
    DatumGetInt32, Int16GetDatum, int32, Float8GetDatum, float8_bits]

theorem pool_status_percall_lt (status : List POOL_REPORT_CONFIG) (k : Nat)
    (hk : k < status.length) :
    pool_status_percall ⟨k, status.length, status⟩
      = (.next (rowOf (status.get ⟨k, hk⟩)), some ⟨k + 1, status.length, status⟩) := by
  have h1 : ((k : Nat) : Int) < (status.length : Int) := by exact_mod_cast hk
  have h2 : status[k]? = some (status.get ⟨k, hk⟩) := by
    rw [List.getElem?_eq_getElem hk]
    rfl
  simp only [pool_status_percall, h1, if_true, h2, rowOf]

theorem pool_status_percall_ge (status : List POOL_REPORT_CONFIG) (k : Nat)
    (hk : status.length ≤ k) :
    pool_status_percall ⟨k, status.length, status⟩ = (.done, none) := by
  have h1 : ¬ ((k : Nat) : Int) < (status.length : Int) := by
    rw [not_lt]
    exact_mod_cast hk
  simp only [pool_status_percall, h1, if_false]

/-- The calls after the first one deliver the items not yet delivered, in order,
then end. -/
theorem drain_rest {σ : Type} (env : Env) (w : PcpClient σ) (a : Args)
    (status : List POOL_REPORT_CONFIG) (calls : Nat) :
    ∀ (k : Nat) (s : σ), k ≤ status.length → status.length - k < calls →
      (drain env w a calls (some ⟨k, status.length, status⟩) s).1
        = .done ((status.drop k).map rowOf) := by
  induction calls with
  | zero => intro k s _ h; omega
  | succ n ih =>
    intro k s hk hcalls
    unfold drain
    simp only [_pcp_pool_status]
    by_cases hlt : k < status.length
    · rw [pool_status_percall_lt status k hlt]
      simp only []
      rw [ih (k + 1) s hlt (by omega), List.drop_eq_getElem_cons hlt]
      rfl
    · rw [pool_status_percall_ge status k (by omega)]
      simp only []
      rw [List.drop_eq_nil_of_le (by omega)]
      rfl

/-- C9. For every successful reply of `pcp_pool_status` with n >= 0 items,
draining `_pcp_pool_status` call by call, with more than n calls allowed,
delivers exactly n rows and then ends: the rows are (name, value, desc) of the
items of the reply, in the order of the reply, each once. For n = 0 the result
is the empty row set and no error is raised. -/
theorem pool_status_drain {σ : Type} (env : Env) (w : PcpClient σ) (a : Args) (s s2 : σ)
    (status : List POOL_REPORT_CONFIG) (calls : Nat) (hc : Connects env w a s s2)
    (hreply : (w.pcp_pool_status s2).1 = some (status, (status.length : Int)))
    (hcalls : status.length < calls) :
    (drain env w a calls none s).1
      = .done (status.map fun c => ⟨c.name, c.value, c.desc⟩) := by
  have hfirst := pool_status_connected env w a s s2 hc status status.length hreply
  obtain ⟨n, rfl⟩ : ∃ n, calls = n + 1 := ⟨calls - 1, by omega⟩
  unfold drain
  simp only [_pcp_pool_status]
  rcases hf : pool_status_firstcall env w a s with ⟨r, log, s1⟩
  rw [hf] at hfirst
  simp only [] at hfirst
  subst hfirst
  by_cases hpos : 0 < status.length
  · have hpos1 : ((status.length : Nat) : Int) > 0 := by exact_mod_cast hpos
    simp only [hpos1, if_true]
    rw [pool_status_percall_lt status 0 hpos]
    simp only []
    rw [drain_rest env w a status n 1 s1 hpos (by omega)]
    have hd : status = status.get ⟨0, hpos⟩ :: status.drop 1 := by
      conv_lhs => rw [← List.drop_zero status, List.drop_eq_getElem_cons hpos]
      rfl
    conv_rhs => rw [hd]
    rfl
  · have hnil : status = [] := List.length_eq_zero.mp (by omega)
    subst hnil
    rfl

/-- C9 at a reply of two items, and at an empty reply. -/
theorem pool_status_drain_witness :
    (drain (env1 [] [])
        (client1 0 none (some ([⟨"port", "9999", "pgpool port"⟩, ⟨"num", "32", "children"⟩], 2))
          3)
        (.explicit "pool" 10 9898 "u" "p") 3 none ()).1
      = .done [⟨"port", "9999", "pgpool port"⟩, ⟨"num", "32", "children"⟩] ∧
    (drain (env1 [] []) (client1 0 none (some ([], 0)) 3)
        (.explicit "pool" 10 9898 "u" "p") 1 none ()).1 = .done [] :=
  ⟨pool_status_drain (env1 [] [])
      (client1 0 none (some ([⟨"port", "9999", "pgpool port"⟩, ⟨"num", "32", "children"⟩], 2)) 3)
      (.explicit "pool" 10 9898 "u" "p") () ()
      [⟨"port", "9999", "pgpool port"⟩, ⟨"num", "32", "children"⟩] 3
      ⟨⟨"pool", 10, 9898, some "u", some "p"⟩, "u", "p", by decide, by decide, by decide,
        by decide, rfl, rfl, rfl⟩ rfl (by decide),
    by decide⟩

/-- C10 as stated fails: the reply of `pcp_node_count` is a C `int` and is
narrowed to the `int16` variable `node_count` before the test. A reply of 65535
is not -1, yet the call raises "Cannot get node count."; a reply of 40000 is
returned as -25536. -/
theorem node_count_narrowed_refuted :
    (65535 : Int) ≠ -1 ∧
    (_pcp_node_count (env1 [] []) (client1 0 none none 65535)
        (.explicit "pool" 10 9898 "u" "p") ()).1 = .error "Cannot get node count." ∧
    (_pcp_node_count (env1 [] []) (client1 0 none none 40000)
        (.explicit "pool" 10 9898 "u" "p") ()).1 = .ok (-25536) := by
  decide

/-- C10, amended. For every integer c returned by `pcp_node_count` after a
successful connect, with c' the value of c narrowed to `int16`: if c' is -1 the
call raises "Cannot get node count." and -1 is not returned as data; otherwise
the call succeeds and returns c'. For every c in -32768..32767, c' is c: the
call fails if and only if c is -1 and otherwise returns c unchanged. -/
theorem node_count_reply {σ : Type} (env : Env) (w : PcpClient σ) (a : Args) (s s2 : σ)
    (c : Int) (hc : Connects env w a s s2) (hreply : (w.pcp_node_count s2).1 = c) :
    (int16 c = -1 → (_pcp_node_count env w a s).1 = .error "Cannot get node count.") ∧
    (int16 c ≠ -1 → (_pcp_node_count env w a s).1 = .ok (int16 c)) ∧
    (-32768 ≤ c → c ≤ 32767 →
      ((_pcp_node_count env w a s).1 = .error "Cannot get node count." ↔ c = -1) ∧
      (c ≠ -1 → (_pcp_node_count env w a s).1 = .ok c)) := by
  have h := node_count_connected env w a s s2 hc
  rw [hreply] at h
  refine ⟨fun h1 => ?_, fun h1 => ?_, fun h0 h1 => ?_⟩
  · rw [h, if_pos h1]
  · rw [h, if_neg h1]
  · rw [int16_of_mem c h0 h1] at h
    refine ⟨⟨fun he => ?_, fun he => ?_⟩, fun hne => ?_⟩
    · by_contra hne
      rw [h, if_neg hne] at he
      cases he
    · rw [h, if_pos he]
    · rw [h, if_neg hne]

/-- C10, amended, at the replies 3 and -1. -/
theorem node_count_reply_witness :
    (_pcp_node_count (env1 [] []) (client1 0 none none 3)
        (.explicit "pool" 10 9898 "u" "p") ()).1 = .ok 3 ∧
    (_pcp_node_count (env1 [] []) (client1 0 none none (-1))
        (.explicit "pool" 10 9898 "u" "p") ()).1 = .error "Cannot get node count." :=
  ⟨((node_count_reply (env1 [] []) (client1 0 none none 3)
      (.explicit "pool" 10 9898 "u" "p") () () 3
      ⟨⟨"pool", 10, 9898, some "u", some "p"⟩, "u", "p", by decide, by decide, by decide,
        by decide, rfl, rfl, rfl⟩ rfl).2.2 (by decide) (by decide)).2 (by decide),
    by decide⟩

end PgpoolAdm
